import Mathlib

/-!
Verification of the CaloQVAE model code (`diVAE.py` and
`models/networks/hierarchicalEncoderV2.py`).

The file gives a shallow embedding of the AE, VAE and DiVAE model
operations and of the hierarchical-encoder network construction, and
proves theorems checking the specification's claims against them.

Tensors are modelled over the reals: a flat tensor is a `List ℝ`, a
2-d tensor (batch) is a `List (List ℝ)` of rows.  Python-level failures
(attribute errors, `sys.exit`, shape errors) are modelled with `Except`.
-/

/-- Python-level failure modes surfaced by the embedded operations. -/
inductive PyErr where
  | attributeError
  | systemExit
  | runtimeError
  | indexError
  deriving DecidableEq, Repr

/-- Row-chunking underlying `torch.Tensor.view(-1, w)`: split a flat tensor
into consecutive rows of width `w`.  (Only reached with `w ≠ 0`.) -/
def toRows : Nat → List ℝ → List (List ℝ)
  | _, [] => []
  | 0, _ :: _ => []
  | w + 1, x :: xs => ((x :: xs).take (w + 1)) :: toRows (w + 1) ((x :: xs).drop (w + 1))
termination_by _ l => l.length
decreasing_by simp; omega

/-- `torch.Tensor.view(-1, w)`: succeeds if and only if `w` divides the
element count, otherwise torch raises a `RuntimeError`. -/
def torch_view (w : Nat) (x : List ℝ) : Except PyErr (List (List ℝ)) :=
  if w ≠ 0 ∧ w ∣ x.length then Except.ok (toRows w x) else Except.error PyErr.runtimeError

/- ------------------------------------------------------------------
Helper lemmas about row chunking.
------------------------------------------------------------------ -/

theorem toRows_nil (w : Nat) : toRows w [] = [] := by
  cases w <;> simp [toRows]

theorem toRows_append (w : Nat) (a b : List ℝ) (ha : a.length = w + 1) :
    toRows (w + 1) (a ++ b) = a :: toRows (w + 1) b := by
  match a, ha with
  | x :: xs, ha =>
    rw [List.cons_append, toRows]
    rw [← List.cons_append]
    rw [List.take_append_of_le_length (by omega), List.drop_append_of_le_length (by omega)]
    rw [List.take_of_length_le (by omega), List.drop_eq_nil_of_le (by omega)]
    simp

theorem toRows_full (w : Nat) (a : List ℝ) (ha : a.length = w + 1) :
    toRows (w + 1) a = [a] := by
  have h := toRows_append w a [] ha
  simpa [toRows_nil] using h

/-- Every row produced by viewing a tensor whose length is a multiple of
`w + 1` has width exactly `w + 1`. -/
theorem toRows_length_mem (w : Nat) (x : List ℝ) (hdvd : (w + 1) ∣ x.length) :
    ∀ r ∈ toRows (w + 1) x, r.length = w + 1 := by
  obtain ⟨k, hk⟩ := hdvd
  induction k generalizing x with
  | zero =>
    have : x = [] := List.eq_nil_of_length_eq_zero (by omega)
    subst this
    simp [toRows_nil]
  | succ n ih =>
    match x, hk with
    | [], hk => simp [toRows_nil]
    | y :: ys, hk =>
      have hge : w + 1 ≤ (y :: ys).length := by rw [hk, Nat.mul_succ]; omega
      rw [toRows]
      intro r hr
      rcases List.mem_cons.mp hr with h | h
      · subst h
        rw [List.length_take]
        omega
      · exact ih _ (by rw [List.length_drop, hk, Nat.mul_succ]; omega) r h

/- ------------------------------------------------------------------
HierarchicalEncoderV2 (models/networks/hierarchicalEncoderV2.py)
------------------------------------------------------------------ -/

/-- Configuration attributes read by the encoder construction; they are set
by the HierarchicalEncoder base class (outside the verified sources):
`num_input_nodes` is the raw input width, `n_latent_nodes` the number of
latent units per level, and `encoder_hidden_nodes` the hidden-layer widths
from the model config. -/
structure EncoderConfig where
  num_input_nodes : Nat
  n_latent_nodes : Nat
  encoder_hidden_nodes : List Nat

/-- A module appended to the Sequential network: a Linear layer with its
in/out feature counts, an Identity placeholder, or the configured
activation function. -/
inductive EncLayer where
  | linear (inFeatures outFeatures : Nat)
  | identity
  | activation
  deriving DecidableEq, Repr

/-- HierarchicalEncoderV2._create_hierarchy_network: builds the per-level
Sequential as Linear/activation pairs over the width schedule
[num_input_nodes + level*n_latent_nodes] ++ hidden ++ [n_latent_nodes],
with Identity in place of the activation after the last Linear. -/
def create_hierarchy_network (cfg : EncoderConfig) (level : Nat) : List EncLayer :=
  let layers : List Nat :=
    [cfg.num_input_nodes + level * cfg.n_latent_nodes] ++ cfg.encoder_hidden_nodes ++
      [cfg.n_latent_nodes]
  (List.range (layers.length - 1)).flatMap fun l =>
    [EncLayer.linear (layers.getD l 0) (layers.getD (l + 1) 0),
     if l = layers.length - 2 then EncLayer.identity else EncLayer.activation]

/- ------------------------------------------------------------------
DiVAE.sigmoid_cross_entropy_with_logits (diVAE.py lines 197-210)
------------------------------------------------------------------ -/

/-- torch.nn.Softplus: softplus y = log(1 + exp y). -/
noncomputable def softplus (y : ℝ) : ℝ := Real.log (1 + Real.exp y)

/-- Element-wise core of DiVAE.sigmoid_cross_entropy_with_logits as coded:
torch.max(x_recon, 0) - x_recon * x_true - Softplus(abs(x_recon)). -/
noncomputable def sce_elem (x_true x_recon : ℝ) : ℝ :=
  max x_recon 0 - x_recon * x_true - softplus |x_recon|

/-- DiVAE.sigmoid_cross_entropy_with_logits on a label vector broadcast
against a batch of logit rows (the shape it is used with in DiVAE.loss). -/
noncomputable def sigmoid_cross_entropy_with_logits
    (x_true : List ℝ) (x_recon : List (List ℝ)) : List (List ℝ) :=
  x_recon.map fun row => List.zipWith sce_elem x_true row

/-- Modelled from the spec's formula (the stable logistic loss the claim
states): max(z,0) - z*x + log(1 + exp(-abs z)). -/
noncomputable def sce_spec_elem (x_true x_recon : ℝ) : ℝ :=
  max x_recon 0 - x_recon * x_true + Real.log (1 + Real.exp (-|x_recon|))

/- ------------------------------------------------------------------
AE and VAE (diVAE.py lines 50-138)
------------------------------------------------------------------ -/

/-- Element-wise torch.nn.functional.binary_cross_entropy:
-(t * log p + (1 - t) * log (1 - p)). -/
noncomputable def bce_elem (p t : ℝ) : ℝ :=
  -(t * Real.log p + (1 - t) * Real.log (1 - p))

/-- binary_cross_entropy with reduction = sum over a batch of rows. -/
noncomputable def binary_cross_entropy_sum (x_recon x_true : List (List ℝ)) : ℝ :=
  (List.zipWith (fun r t => (List.zipWith bce_elem r t).sum) x_recon x_true).sum

/-- AE.forward: view the input as rows of width 784, encode, decode.
The SimpleEncoder/SimpleDecoder networks are external collaborators and are
passed in as functions on batches. -/
noncomputable def AE.forward (encode decode : List (List ℝ) → List (List ℝ))
    (x : List ℝ) : Except PyErr (List (List ℝ) × List (List ℝ)) := do
  let xv ← torch_view 784 x
  let zeta := encode xv
  pure (decode zeta, zeta)

/-- AE.loss: binary cross entropy of the reconstruction against the input
viewed as rows of width 784, summed. -/
noncomputable def AE.loss (x_true : List ℝ) (x_recon : List (List ℝ)) :
    Except PyErr ℝ := do
  let xv ← torch_view 784 x_true
  pure (binary_cross_entropy_sum x_recon xv)

/-- VAE.reparameterize: eps is the tensor drawn by torch.randn_like(mu)
(a standard-normal draw, passed in explicitly); the result is
mu + eps * exp(0.5 * logvar), element-wise. -/
noncomputable def VAE.reparameterize (eps mu logvar : List ℝ) : List ℝ :=
  List.zipWith (fun m s => m + s) mu
    (List.zipWith (fun e lv => e * Real.exp (0.5 * lv)) eps logvar)

/-- VAE.loss: auto_loss = summed BCE of x_recon against x.view(-1, 784);
kl_loss = 0.5 * sum(1 + logvar - mu^2 - exp logvar); result is
auto_loss - kl_loss. -/
noncomputable def VAE.loss (x : List ℝ) (x_recon : List (List ℝ))
    (mu logvar : List ℝ) : Except PyErr ℝ := do
  let xv ← torch_view 784 x
  let auto_loss := binary_cross_entropy_sum x_recon xv
  let kl_loss :=
    0.5 * (List.zipWith (fun lv m => 1 + lv - m ^ 2 - Real.exp lv) logvar mu).sum
  pure (auto_loss - kl_loss)

/-- VAE.forward: view to width 784, encode, apply the mu/var reparam
layers (external nn.Linear modules, passed as functions), reparameterize,
decode. -/
noncomputable def VAE.forward (encode : List (List ℝ) → List (List ℝ))
    (mu_layer var_layer : List (List ℝ) → List ℝ) (eps : List ℝ)
    (decode : List ℝ → List (List ℝ)) (x : List ℝ) :
    Except PyErr (List (List ℝ) × List ℝ × List ℝ × List ℝ) := do
  let xv ← torch_view 784 x
  let x_prime := encode xv
  let mu := mu_layer x_prime
  let logvar := var_layer x_prime
  let zeta := VAE.reparameterize eps mu logvar
  pure (decode zeta, mu, logvar, zeta)

/- ------------------------------------------------------------------
Torch values with broadcasting, for the DiVAE KL computation
------------------------------------------------------------------ -/

/-- A torch value as it appears in DiVAE.kl_divergence: the Python scalar 0
the accumulators start from, a 1-d tensor (one entry per batch sample), or
a 2-d tensor (batch rows by latent units). -/
inductive TorchVal where
  | scalar (r : ℝ)
  | vec (v : List ℝ)
  | mat (m : List (List ℝ))

/-- Broadcasting addition on torch values (scalars broadcast over tensors,
vectors broadcast over matrix rows, equal shapes add element-wise). -/
noncomputable def tvAdd : TorchVal → TorchVal → TorchVal
  | .scalar a, .scalar b => .scalar (a + b)
  | .scalar a, .vec v => .vec (v.map fun x => a + x)
  | .scalar a, .mat m => .mat (m.map fun r => r.map fun x => a + x)
  | .vec v, .scalar b => .vec (v.map fun x => x + b)
  | .vec v, .vec w => .vec (List.zipWith (fun x y => x + y) v w)
  | .vec v, .mat m => .mat (m.map fun r => List.zipWith (fun x y => x + y) v r)
  | .mat m, .scalar b => .mat (m.map fun r => r.map fun x => x + b)
  | .mat m, .vec v => .mat (m.map fun r => List.zipWith (fun x y => x + y) r v)
  | .mat m, .mat n => .mat (List.zipWith (List.zipWith fun x y => x + y) m n)

/-- Broadcasting subtraction on torch values. -/
noncomputable def tvSub : TorchVal → TorchVal → TorchVal
  | .scalar a, .scalar b => .scalar (a - b)
  | .scalar a, .vec v => .vec (v.map fun x => a - x)
  | .scalar a, .mat m => .mat (m.map fun r => r.map fun x => a - x)
  | .vec v, .scalar b => .vec (v.map fun x => x - b)
  | .vec v, .vec w => .vec (List.zipWith (fun x y => x - y) v w)
  | .vec v, .mat m => .mat (m.map fun r => List.zipWith (fun x y => x - y) v r)
  | .mat m, .scalar b => .mat (m.map fun r => r.map fun x => x - b)
  | .mat m, .vec v => .mat (m.map fun r => List.zipWith (fun x y => x - y) r v)
  | .mat m, .mat n => .mat (List.zipWith (List.zipWith fun x y => x - y) m n)

/-- torch.sum(t, dim=1): row sums of a 2-d tensor (only applied to the
entropy matrix in the source). -/
noncomputable def tvSumDim1 : TorchVal → TorchVal
  | .mat m => .vec (m.map List.sum)
  | t => t

/-- torch.mean over all entries. -/
noncomputable def tvMean : TorchVal → TorchVal
  | .scalar a => .scalar a
  | .vec v => .scalar (v.sum / v.length)
  | .mat m => .scalar ((m.map List.sum).sum / ((m.map List.length).sum : ℕ))

/- ------------------------------------------------------------------
DiVAE (diVAE.py lines 140-336)
------------------------------------------------------------------ -/

/-- A factorized posterior level as used by kl_divergence: its entropy
method maps a batch of samples to a per-sample-per-unit entropy matrix
(an external capability of the distribution objects). -/
structure Factorial where
  entropy : List (List ℝ) → List (List ℝ)

/-- DiVAE.weight_decay_loss: logs "ERROR weight_decay_loss NOT IMPLEMENTED"
at debug level and returns the Python scalar 0; it raises nothing. -/
def weight_decay_loss : Except PyErr ℝ := Except.ok 0

/-- DiVAE.kl_div_prior_gradient: logs "ERROR kl_div_prior_gradient" at
debug level and returns 0; it raises nothing. -/
def kl_div_prior_gradient {α β : Type} (posterior : α) (prior : β) :
    Except PyErr ℝ :=
  Except.ok 0

/-- DiVAE.kl_div_posterior_gradient: logs "ERROR kl_div_posterior_gradient"
at debug level and returns 0; it raises nothing. -/
def kl_div_posterior_gradient {α β : Type} (posterior : α) (prior : β) :
    Except PyErr ℝ :=
  Except.ok 0

/-- The accumulation loop of DiVAE.kl_divergence (the zip over posterior
levels and their samples): entropy += factorial.entropy(samples);
entropy_reduced = torch.sum(entropy, dim=1);
cross_entropy += prior.cross_entropy(samples); finally the function
returns cross_entropy - entropy_reduced.  priorCE is the external RBM
prior's cross_entropy method. -/
noncomputable def klDivergenceLoop (priorCE : List (List ℝ) → List ℝ) :
    List (Factorial × List (List ℝ)) → TorchVal → TorchVal → TorchVal → TorchVal
  | [], _entropy, entropy_reduced, cross_entropy => tvSub cross_entropy entropy_reduced
  | (factorial, samples) :: rest, entropy, _entropy_reduced, cross_entropy =>
    let entropy' := tvAdd entropy (TorchVal.mat (factorial.entropy samples))
    klDivergenceLoop priorCE rest entropy' (tvSumDim1 entropy')
      (tvAdd cross_entropy (TorchVal.vec (priorCE samples)))

/-- DiVAE.kl_divergence.  The guard is
if len(posterior) > 1 and self._model.training: with more than one level
the attribute lookup self._model is reached, and DiVAE (a torch.nn.Module)
defines no attribute _model anywhere, so Python raises AttributeError
before either branch body runs; with at most one level the conjunction
short-circuits and the closed-form else branch runs.  The self.training
flag is therefore never consulted. -/
noncomputable def kl_divergence (_training : Bool)
    (priorCE : List (List ℝ) → List ℝ) (posterior : List Factorial)
    (posterior_samples : List (List (List ℝ))) : Except PyErr TorchVal :=
  if posterior.length > 1 then
    Except.error PyErr.attributeError
  else
    Except.ok (klDivergenceLoop priorCE (posterior.zip posterior_samples)
      (TorchVal.scalar 0) (TorchVal.scalar 0) (TorchVal.scalar 0))

/-- The reconstruction term of DiVAE.loss:
ae_loss_matrix = sigmoid_cross_entropy_with_logits(x_true =
x.view(-1, 784)[0], x_recon = x_recon) — note the [0]: the first row of
the viewed input is broadcast against every reconstruction row — and
ae_loss = torch.sum(ae_loss_matrix, axis=1), one scalar per sample. -/
noncomputable def reconstruction_terms (x : List ℝ) (x_recon : List (List ℝ)) :
    Except PyErr (List ℝ) := do
  let xv ← torch_view 784 x
  let x_true ← match xv with
    | [] => Except.error PyErr.indexError
    | row :: _ => pure row
  pure ((sigmoid_cross_entropy_with_logits x_true x_recon).map List.sum)

/-- DiVAE.loss: reconstruction terms, plus the KL estimate, averaged over
the batch, plus the weight-decay term (weight_decay_loss() when training,
the literal 0 otherwise). -/
noncomputable def DiVAE.loss (training : Bool)
    (priorCE : List (List ℝ) → List ℝ) (posterior : List Factorial)
    (posterior_samples : List (List (List ℝ))) (x : List ℝ)
    (x_recon : List (List ℝ)) : Except PyErr TorchVal := do
  let ae_loss ← reconstruction_terms x x_recon
  let kl_loss ← kl_divergence training priorCE posterior posterior_samples
  let wd ← if training then weight_decay_loss else pure (0 : ℝ)
  let neg_elbo_per_sample := tvAdd (TorchVal.vec ae_loss) kl_loss
  let neg_elbo := tvMean neg_elbo_per_sample
  pure (tvAdd neg_elbo (TorchVal.scalar wd))

/-- torch.cat(ms, 1): concatenate a list of batches row-wise. -/
noncomputable def torchCat1 : List (List (List ℝ)) → List (List ℝ)
  | [] => []
  | [m] => m
  | m :: rest => List.zipWith (fun r s => r ++ s) m (torchCat1 rest)

/-- DiVAE.forward: view the input to rows of width 784, run the external
hierarchical encoder to get the per-level (distribution, sample) pairs,
concatenate the samples, decode them — and then the function prints the
activations and calls sys.exit(), unconditionally terminating the process
(the two statements after sys.exit() are unreachable). -/
noncomputable def DiVAE.forward {Dist : Type}
    (hierarchical_posterior : List (List ℝ) → List Dist × List (List (List ℝ)))
    (decode : List (List ℝ) → List (List ℝ)) (x : List ℝ) :
    Except PyErr (List (List ℝ) × List Dist × List (List (List ℝ))) := do
  let xv ← torch_view 784 x
  let (_posterior_distributions, posterior_samples) := hierarchical_posterior xv
  let posterior_samples_concat := torchCat1 posterior_samples
  let _output_activations := decode posterior_samples_concat
  Except.error PyErr.systemExit

/- ------------------------------------------------------------------
Shared evaluation lemmas
------------------------------------------------------------------ -/

theorem sce_elem_zero_zero : sce_elem 0 0 = -Real.log 2 := by
  simp [sce_elem, softplus]
  norm_num

theorem sce_spec_elem_zero_zero : sce_spec_elem 0 0 = Real.log 2 := by
  simp [sce_spec_elem]
  norm_num

/- ------------------------------------------------------------------
Claim theorems
------------------------------------------------------------------ -/

/-- C1: the claim says sigmoid_cross_entropy_with_logits returns
max(z,0) - z*x + log(1 + exp(-abs z)) per element; the code instead
subtracts Softplus(abs z), so at x_true = 0, x_recon = 0 it returns
-log 2 where the claimed formula gives +log 2. -/
theorem sce_formula_differs_from_claim :
    sce_elem 0 0 = -Real.log 2 ∧ sce_spec_elem 0 0 = Real.log 2 ∧
      sce_elem 0 0 ≠ sce_spec_elem 0 0 := by
  refine ⟨sce_elem_zero_zero, sce_spec_elem_zero_zero, ?_⟩
  rw [sce_elem_zero_zero, sce_spec_elem_zero_zero]
  have h : 0 < Real.log 2 := Real.log_pos (by norm_num)
  linarith

/-- C7: the code's logistic loss is negative at x_true = x_recon = 0
(it evaluates to -log 2), refuting element-wise non-negativity; the
formula the spec states is indeed non-negative for labels in [0,1]. -/
theorem sce_nonneg_fails_on_code :
    sce_elem 0 0 < 0 ∧ ∀ x z : ℝ, 0 ≤ x → x ≤ 1 → 0 ≤ sce_spec_elem x z := by
  constructor
  · rw [sce_elem_zero_zero]
    have h : 0 < Real.log 2 := Real.log_pos (by norm_num)
    linarith
  · intro x z hx0 hx1
    have hlog : 0 < Real.log (1 + Real.exp (-|z|)) :=
      Real.log_pos (by linarith [Real.exp_pos (-|z|)])
    unfold sce_spec_elem
    rcases le_total z 0 with hz | hz
    · rw [max_eq_right hz]
      nlinarith
    · rw [max_eq_left hz]
      nlinarith

theorem sce_nonneg_fails_on_code_witness : 0 ≤ sce_spec_elem 1 0 :=
  sce_nonneg_fails_on_code.2 1 0 (by norm_num) (by norm_num)

/-- C5 counterexample: invoked at concrete arguments, the three unfinished
paths return the placeholder Except.ok 0 — they do not surface an error,
contradicting the claim. -/
theorem unfinished_paths_ok_zero_counterexample :
    weight_decay_loss = Except.ok 0 ∧
      kl_div_prior_gradient (0 : ℝ) (0 : ℝ) = Except.ok 0 ∧
      kl_div_posterior_gradient (0 : ℝ) (0 : ℝ) = Except.ok 0 :=
  ⟨rfl, rfl, rfl⟩

/-- C5 amended: DiVAE.weight_decay_loss, DiVAE.kl_div_prior_gradient and
DiVAE.kl_div_posterior_gradient silently return the placeholder value 0
for every argument (logging only a debug message); none of them raises. -/
theorem unfinished_paths_return_zero {α β : Type} (posterior : α) (prior : β) :
    weight_decay_loss = Except.ok 0 ∧
      kl_div_prior_gradient posterior prior = Except.ok 0 ∧
      kl_div_posterior_gradient posterior prior = Except.ok 0 :=
  ⟨rfl, rfl, rfl⟩

/-- C8: for every configuration and level, the first module of the level's
sub-network is a Linear layer whose input width is
num_input_nodes + level * n_latent_nodes; in particular at level 0 it is
the raw input width, and it grows linearly with the level. -/
theorem create_hierarchy_network_first_linear (cfg : EncoderConfig) (level : Nat) :
    (create_hierarchy_network cfg level).head? =
      some (EncLayer.linear (cfg.num_input_nodes + level * cfg.n_latent_nodes)
        ((cfg.encoder_hidden_nodes ++ [cfg.n_latent_nodes]).getD 0 0)) := by
  unfold create_hierarchy_network
  simp only [List.length_append, List.length_cons, List.length_nil]
  rw [show 0 + 1 + cfg.encoder_hidden_nodes.length + (0 + 1) - 1 =
    cfg.encoder_hidden_nodes.length + 1 by omega]
  rw [List.range_succ_eq_map, List.flatMap_cons]
  simp [List.getD]

/-- C2: for a posterior with exactly one hierarchy level, kl_divergence
returns the claimed closed form — the prior cross-entropy at the drawn
sample minus the analytic entropy summed over the latent-unit dimension —
but for a posterior with two levels outside training mode the code raises
AttributeError (the guard reads the undefined attribute self._model)
instead of returning the multi-level closed form the claim states. -/
theorem kl_divergence_single_level_and_eval_crash :
    (∀ (f : Factorial) (s : List (List ℝ)) (priorCE : List (List ℝ) → List ℝ),
      kl_divergence false priorCE [f] [s] =
        Except.ok (TorchVal.vec
          (List.zipWith (fun c e => c - e) (priorCE s)
            ((f.entropy s).map List.sum)))) ∧
    (∀ (f g : Factorial) (s t : List (List ℝ)) (priorCE : List (List ℝ) → List ℝ),
      kl_divergence false priorCE [f, g] [s, t] =
        Except.error PyErr.attributeError) := by
  constructor
  · intro f s priorCE
    rw [kl_divergence, if_neg (by simp)]
    rw [List.zip_cons_cons, List.zip_nil_left, klDivergenceLoop]
    simp only [tvAdd, tvSumDim1]
    rw [klDivergenceLoop]
    simp only [tvSub]
    simp
  · intro f g s t priorCE
    simp [kl_divergence]

/-- C4: for a posterior with two hierarchy levels in training mode,
kl_divergence does not return the sum of the two gradient surrogate
terms: evaluating the guard raises AttributeError at self._model first
(and past that, kl_div_prior_gradient() is invoked without its two
required arguments). -/
theorem kl_divergence_training_multilevel_crash (f g : Factorial)
    (s t : List (List ℝ)) (priorCE : List (List ℝ) → List ℝ) :
    kl_divergence true priorCE [f, g] [s, t] =
      Except.error PyErr.attributeError := by
  simp [kl_divergence]

/-- C3: DiVAE.forward never returns normally: for every well-shaped input
it runs the encoder and the decoder and then calls sys.exit(),
terminating the process instead of returning the reconstruction logits
and the (distribution, sample) pairs. -/
theorem divae_forward_aborts {Dist : Type}
    (hierarchical_posterior : List (List ℝ) → List Dist × List (List (List ℝ)))
    (decode : List (List ℝ) → List (List ℝ)) (x : List ℝ)
    (hdvd : 784 ∣ x.length) :
    DiVAE.forward hierarchical_posterior decode x =
      Except.error PyErr.systemExit := by
  rw [DiVAE.forward, torch_view, if_pos ⟨by norm_num, hdvd⟩]
  rfl

theorem divae_forward_aborts_witness :
    DiVAE.forward (fun _ => (([] : List Unit), [])) id (List.replicate 784 0) =
      Except.error PyErr.systemExit :=
  divae_forward_aborts _ _ _ (by rw [List.length_replicate])

/-- Modelled from the spec: the analytic Gaussian KL-to-standard-normal
term 0.5 * sum(1 + logvar - mu^2 - exp(logvar)). -/
noncomputable def gaussian_kl_spec (mu logvar : List ℝ) : ℝ :=
  0.5 * (List.zipWith (fun m lv => 1 + lv - m ^ 2 - Real.exp lv) mu logvar).sum

/-- Modelled from the spec: z = mu + eps * exp(0.5 * logvar) with
eps ~ N(0, I), element-wise over the three vectors. -/
noncomputable def reparameterize_spec (eps mu logvar : List ℝ) : List ℝ :=
  (mu.zip (eps.zip logvar)).map fun p => p.1 + p.2.1 * Real.exp (0.5 * p.2.2)

theorem reparameterize_eq_spec (eps mu logvar : List ℝ) :
    VAE.reparameterize eps mu logvar = reparameterize_spec eps mu logvar := by
  induction eps generalizing mu logvar with
  | nil => cases mu <;> cases logvar <;> simp [VAE.reparameterize, reparameterize_spec]
  | cons e es ih =>
    cases mu with
    | nil => simp [VAE.reparameterize, reparameterize_spec]
    | cons m ms =>
      cases logvar with
      | nil => simp [VAE.reparameterize, reparameterize_spec]
      | cons lv lvs =>
        have h := ih ms lvs
        simp only [VAE.reparameterize, reparameterize_spec] at h ⊢
        simp [h]

/-- C9: VAE.loss returns the summed binary cross-entropy of the
reconstruction against the viewed input minus the analytic Gaussian KL
term of the spec, and VAE.reparameterize agrees element-wise with the
spec's mu + eps * exp(0.5 * logvar). -/
theorem vae_loss_and_reparameterize_match_spec :
    (∀ (x : List ℝ) (x_recon : List (List ℝ)) (mu logvar : List ℝ)
        (rows : List (List ℝ)), torch_view 784 x = Except.ok rows →
      VAE.loss x x_recon mu logvar =
        Except.ok (binary_cross_entropy_sum x_recon rows -
          gaussian_kl_spec mu logvar)) ∧
    (∀ eps mu logvar : List ℝ,
      VAE.reparameterize eps mu logvar = reparameterize_spec eps mu logvar) := by
  constructor
  · intro x x_recon mu logvar rows hview
    rw [VAE.loss, hview]
    show Except.ok _ = Except.ok _
    rw [gaussian_kl_spec, List.zipWith_comm]
  · exact reparameterize_eq_spec

theorem torch_view_replicate :
    torch_view 784 (List.replicate 784 (0 : ℝ)) =
      Except.ok [List.replicate 784 0] := by
  rw [torch_view, if_pos ⟨by norm_num, by rw [List.length_replicate]⟩]
  exact congrArg Except.ok (toRows_full 783 _ (by rw [List.length_replicate]))

theorem vae_loss_and_reparameterize_match_spec_witness :
    VAE.loss (List.replicate 784 0) [] [] [] =
      Except.ok (binary_cross_entropy_sum [] [List.replicate 784 0] -
        gaussian_kl_spec [] []) :=
  vae_loss_and_reparameterize_match_spec.1 _ _ _ _ _ torch_view_replicate

theorem zipWith_replicate_self {α β γ : Type} (f : α → β → γ) (n : Nat)
    (a : α) (b : β) :
    List.zipWith f (List.replicate n a) (List.replicate n b) =
      List.replicate n (f a b) := by
  induction n with
  | zero => rfl
  | succ k ih => simp [List.replicate_succ, ih]

theorem torch_view_two_rows :
    torch_view 784 (List.replicate 784 (0 : ℝ) ++ List.replicate 784 1) =
      Except.ok [List.replicate 784 0, List.replicate 784 1] := by
  rw [torch_view, if_pos ⟨by norm_num,
    by rw [List.length_append, List.length_replicate, List.length_replicate]; omega⟩]
  have h1 : toRows 784 (List.replicate 784 (0 : ℝ) ++ List.replicate 784 1) =
      List.replicate 784 0 :: toRows 784 (List.replicate 784 (1 : ℝ)) :=
    toRows_append 783 _ _ (by rw [List.length_replicate])
  rw [h1, toRows_full 783 _ (by rw [List.length_replicate])]

/-- C6: the reconstruction term inside DiVAE.loss evaluates every sample
against input row 0 (the code indexes x.view(-1, 784)[0]), not against the
sample's own row: on a batch whose row 0 is all zeros and row 1 all ones,
with all-ones reconstruction logits for both samples, the k = 1 per-sample
scalar is 784 * sce_elem 0 1 (row-0 labels), which differs from the
784 * sce_elem 1 1 that pairing row 1 with its own labels would give. -/
theorem reconstruction_term_pairs_row_zero :
    reconstruction_terms (List.replicate 784 0 ++ List.replicate 784 1)
        [List.replicate 784 1, List.replicate 784 1] =
      Except.ok [784 * sce_elem 0 1, 784 * sce_elem 0 1] ∧
    (784 : ℝ) * sce_elem 0 1 ≠ 784 * sce_elem 1 1 := by
  constructor
  · have hsce : List.zipWith sce_elem (List.replicate 784 (0 : ℝ))
        (List.replicate 784 (1 : ℝ)) = List.replicate 784 (sce_elem 0 1) :=
      zipWith_replicate_self _ _ _ _
    have hsum : (List.replicate 784 (sce_elem 0 1)).sum = (784 : ℝ) * sce_elem 0 1 := by
      rw [List.sum_replicate, nsmul_eq_mul]
      norm_num
    rw [reconstruction_terms, torch_view_two_rows]
    show Except.ok _ = Except.ok _
    rw [sigmoid_cross_entropy_with_logits]
    simp only [List.map_cons, List.map_nil, hsce, hsum]
  · have hmax : max (1 : ℝ) 0 = 1 := max_eq_left zero_le_one
    have h01 : sce_elem 0 1 = 1 - softplus 1 := by
      rw [sce_elem, hmax, abs_one]
      ring
    have h11 : sce_elem 1 1 = -softplus 1 := by
      rw [sce_elem, hmax, abs_one]
      ring
    intro h
    rw [h01, h11] at h
    have h784 : (784 : ℝ) = 0 := by linarith
    norm_num at h784

/-- C10: every forward/loss operation of AE, VAE and DiVAE reshapes its
input to rows of hard-coded width 784, whatever the external networks and
configuration are: on any input whose element count is not a multiple of
784 each operation fails at the reshape with the view RuntimeError, and
whenever the reshape succeeds every resulting row has width exactly 784. -/
theorem view_width_784_hardcoded :
    (∀ (enc dec : List (List ℝ) → List (List ℝ)) (x : List ℝ),
      ¬ (784 ∣ x.length) →
      AE.forward enc dec x = Except.error PyErr.runtimeError) ∧
    (∀ (x : List ℝ) (x_recon : List (List ℝ)), ¬ (784 ∣ x.length) →
      AE.loss x x_recon = Except.error PyErr.runtimeError) ∧
    (∀ (enc : List (List ℝ) → List (List ℝ))
        (mu_layer var_layer : List (List ℝ) → List ℝ) (eps : List ℝ)
        (dec : List ℝ → List (List ℝ)) (x : List ℝ), ¬ (784 ∣ x.length) →
      VAE.forward enc mu_layer var_layer eps dec x =
        Except.error PyErr.runtimeError) ∧
    (∀ (x : List ℝ) (x_recon : List (List ℝ)) (mu logvar : List ℝ),
      ¬ (784 ∣ x.length) →
      VAE.loss x x_recon mu logvar = Except.error PyErr.runtimeError) ∧
    (∀ (hp : List (List ℝ) → List Unit × List (List (List ℝ)))
        (dec : List (List ℝ) → List (List ℝ)) (x : List ℝ),
      ¬ (784 ∣ x.length) →
      DiVAE.forward hp dec x = Except.error PyErr.runtimeError) ∧
    (∀ (training : Bool) (priorCE : List (List ℝ) → List ℝ)
        (posterior : List Factorial) (samples : List (List (List ℝ)))
        (x : List ℝ) (x_recon : List (List ℝ)), ¬ (784 ∣ x.length) →
      DiVAE.loss training priorCE posterior samples x x_recon =
        Except.error PyErr.runtimeError) ∧
    (∀ (x : List ℝ) (rows : List (List ℝ)),
      torch_view 784 x = Except.ok rows → ∀ r ∈ rows, r.length = 784) := by
  refine ⟨?_, ?_, ?_, ?_, ?_, ?_, ?_⟩
  · intro enc dec x h
    rw [AE.forward, torch_view, if_neg (fun hc => h hc.2)]
    rfl
  · intro x x_recon h
    rw [AE.loss, torch_view, if_neg (fun hc => h hc.2)]
    rfl
  · intro enc mu_layer var_layer eps dec x h
    rw [VAE.forward, torch_view, if_neg (fun hc => h hc.2)]
    rfl
  · intro x x_recon mu logvar h
    rw [VAE.loss, torch_view, if_neg (fun hc => h hc.2)]
    rfl
  · intro hp dec x h
    rw [DiVAE.forward, torch_view, if_neg (fun hc => h hc.2)]
    rfl
  · intro training priorCE posterior samples x x_recon h
    rw [DiVAE.loss, reconstruction_terms, torch_view, if_neg (fun hc => h hc.2)]
    rfl
  · intro x rows hv r hr
    rw [torch_view] at hv
    split_ifs at hv with hc
    cases hv
    exact toRows_length_mem 783 x hc.2 r hr

theorem view_width_784_hardcoded_witness :
    AE.forward id id [0] = Except.error PyErr.runtimeError ∧
    AE.loss [0] [] = Except.error PyErr.runtimeError ∧
    VAE.forward id (fun _ => []) (fun _ => []) [] (fun _ => []) [0] =
      Except.error PyErr.runtimeError ∧
    VAE.loss [0] [] [] [] = Except.error PyErr.runtimeError ∧
    DiVAE.forward (fun _ => (([] : List Unit), [])) id [0] =
      Except.error PyErr.runtimeError ∧
    DiVAE.loss false (fun _ => []) [] [] [0] [] =
      Except.error PyErr.runtimeError ∧
    (List.replicate 784 (0 : ℝ)).length = 784 := by
  have h1 : ¬ ((784 : ℕ) ∣ ([(0 : ℝ)]).length) := by
    rw [List.length_singleton]
    omega
  exact ⟨view_width_784_hardcoded.1 id id [0] h1,
    view_width_784_hardcoded.2.1 [0] [] h1,
    view_width_784_hardcoded.2.2.1 id _ _ [] _ [0] h1,
    view_width_784_hardcoded.2.2.2.1 [0] [] [] [] h1,
    view_width_784_hardcoded.2.2.2.2.1 _ id [0] h1,
    view_width_784_hardcoded.2.2.2.2.2.1 false _ [] [] [0] [] h1,
    view_width_784_hardcoded.2.2.2.2.2.2 _ _ torch_view_replicate _
      (List.mem_singleton_self _)⟩
